import Mathlib

/-!
Verification of the fetch core of just-install (`src/pkg/fetch/fetch.go`).

The Go code is shallowly embedded as pure Lean functions. External effects
are made explicit:

* the local filesystem is a pair of lists of paths (`FS`), threaded through
  the functions; `dry.FileExists` / `dry.FileIsDir` become membership tests;
* the HTTP client is an environment (`Env`) describing what the network
  returns for the single GET request: either a transport error, or a
  response consisting of the chain of redirect targets followed, a status
  code, a content length and a body stream; `os.Create` and `os.Rename`
  failures are environment flags;
* observable side effects (issuing the GET request, creating a file,
  renaming a file) are recorded in an event trace, so "no network call" and
  "no file written" are statements about the trace and the filesystem;
* `url.Parse` is passed in as a parameter `parseURL` (its Go implementation
  is outside this repository); theorems quantify over its result.

Simplifications that do not affect the claims: file contents and
modification times are not modelled (only existence), `filepath.Join` does
not run `Clean` and uses the slash separator, and the progress bar is not
modelled (its writes always succeed in `pb.v1`, so it cannot influence any
result).
-/

/-- A parsed URL, as produced by Go's `url.Parse`: only the fields the
fetch code reads (`Scheme`, `Path`, and the full form used in messages). -/
structure URL where
  scheme : String
  host : String
  path : String
deriving DecidableEq, Repr

/-- `Options` from fetch.go: destination path (file or existing directory)
and whether to show the progress indicator. -/
structure Options where
  destination : String
  progress : Bool
deriving DecidableEq, Repr

/-- The local filesystem: which regular files and which directories exist.
Only existence is relevant to the fetch code. -/
structure FS where
  files : List String
  dirs : List String
deriving DecidableEq, Repr

/-- `dry.FileExists`: a regular file exists at this path. -/
def FS.fileExists (fs : FS) (p : String) : Bool :=
  fs.files.any (fun q => q = p)

/-- `dry.FileIsDir`: an existing directory lives at this path. -/
def FS.fileIsDir (fs : FS) (p : String) : Bool :=
  fs.dirs.any (fun q => q = p)

/-- Effect of `os.Create`: the file now exists (possibly truncated). -/
def FS.addFile (fs : FS) (p : String) : FS :=
  { fs with files := p :: fs.files }

/-- Effect of `os.Rename` on the source path: the file is gone. -/
def FS.removeFile (fs : FS) (p : String) : FS :=
  { fs with files := fs.files.filter (fun q => q ≠ p) }

/-- One step of the response-body copy loop in `io.Copy`: a chunk that is
read and written successfully, a network read error, or a disk write
error. -/
inductive StreamEvent where
  | chunk (size : Nat)
  | readError
  | writeError
deriving DecidableEq, Repr

/-- What the network returns for the single GET request: the redirect
targets followed (in order), the terminal status code, the declared
content length, and the body stream. -/
structure HTTPResponse where
  redirects : List URL
  statusCode : Nat
  contentLength : Int
  body : List StreamEvent
deriving DecidableEq, Repr

/-- Outcome of the transport layer for the GET request. -/
inductive NetResult where
  | transportError (msg : String)
  | response (resp : HTTPResponse)
deriving DecidableEq, Repr

/-- The environment of one fetch call: the network's behaviour and whether
`os.Create` / `os.Rename` fail. -/
structure Env where
  net : NetResult
  createFails : Bool
  renameFails : Bool
deriving DecidableEq, Repr

/-- The distinguishable errors fetch.go can return (each constructor
corresponds to one `errors.New` / `fmt.Errorf` / propagated error site). -/
inductive FetchError where
  | missingDestination
  | parseError (msg : String)
  | unknownScheme (scheme : String)
  | doError (msg : String)
  | tooManyRedirects
  | unexpectedStatus (code : Nat) (url : URL)
  | createError (path : String)
  | copyError (msg : String)
  | renameError (src dst : String)
deriving DecidableEq, Repr

/-- Observable side effects of one fetch call. -/
inductive Effect where
  | httpRequest (u : URL)
  | createFile (path : String)
  | renameFile (src dst : String)
deriving DecidableEq, Repr

/-- Result of a fetch call: the returned value, the final filesystem, and
the trace of observable effects. -/
structure FetchOutcome where
  result : Except FetchError String
  fs : FS
  trace : List Effect
deriving Repr

/-- The `CheckRedirect` hook installed on the HTTP client (fetch.go lines
89–97): walking the redirect targets, it aborts once `len(via) >= 10` and
otherwise records the most recent target. `via` counts the requests
already made (1 for the initial request). -/
def checkRedirects : List URL → Option URL → Nat → Except String (Option URL)
  | [], last, _ => .ok last
  | r :: rest, _last, via =>
    if via ≥ 10 then .error "stopped after 10 redirects"
    else checkRedirects rest (some r) (via + 1)

/-- `io.Copy(copyWriter, resp.Body)` (fetch.go line 145): succeeds when the
whole stream is consumed, fails at the first read or write error. -/
def runCopy : List StreamEvent → Except String Unit
  | [] => .ok ()
  | .chunk _ :: rest => runCopy rest
  | .readError :: _ => .error "unexpected EOF"
  | .writeError :: _ => .error "write error"

/-- Go's `filepath.Base` restricted to slash separators: strip trailing
slashes, then keep everything after the last slash; empty input gives "."
and an all-slash input gives "/". -/
def filepathBase (p : String) : String :=
  if p = "" then "."
  else
    let cs := (p.data.reverse.dropWhile (fun c => c = '/')).reverse
    let last := (cs.reverse.takeWhile (fun c => c ≠ '/')).reverse
    if last.isEmpty then "/" else String.mk last

/-- Go's `filepath.Join` restricted to slash separators, without `Clean`. -/
def filepathJoin (dir name : String) : String :=
  dir ++ "/" ++ name

/-- Final destination computation (fetch.go lines 109–117): if the
destination is an existing directory, append the base name of the last
redirect target's path, or of the original request's path when no redirect
occurred; otherwise use the destination verbatim. -/
def computeDest (resource : URL) (destination : String) (lastLocation : Option URL)
    (fs : FS) : String :=
  if fs.fileIsDir destination then
    match lastLocation with
    | none => filepathJoin destination (filepathBase resource.path)
    | some loc => filepathJoin destination (filepathBase loc.path)
  else destination

/-- `fetchHTTP` (fetch.go lines 74–158): issue the GET request through the
client with the redirect hook, require status 200, compute the final
destination, return early when it already exists, otherwise stream to the
sibling `<dest>.download` temporary file and rename it into place.
`http.NewRequest` cannot fail on an already-parsed http(s) URL, so it is
not a failure point of the model. -/
def fetchHTTP (resource : URL) (optionsIn : Option Options) (env : Env)
    (fs : FS) : FetchOutcome :=
  let options := optionsIn.getD { destination := "", progress := false }
  let trace := [Effect.httpRequest resource]
  match env.net with
  | .transportError msg => ⟨.error (.doError msg), fs, trace⟩
  | .response resp =>
    match checkRedirects resp.redirects none 1 with
    | .error _ => ⟨.error .tooManyRedirects, fs, trace⟩
    | .ok lastLocation =>
      if resp.statusCode ≠ 200 then
        ⟨.error (.unexpectedStatus resp.statusCode resource), fs, trace⟩
      else
        let dest := computeDest resource options.destination lastLocation fs
        if fs.fileExists dest then
          ⟨.ok dest, fs, trace⟩
        else
          let destTmp := dest ++ ".download"
          if env.createFails then
            ⟨.error (.createError destTmp), fs, trace⟩
          else
            let fs1 := fs.addFile destTmp
            let trace1 := trace ++ [Effect.createFile destTmp]
            match runCopy resp.body with
            | .error msg => ⟨.error (.copyError msg), fs1, trace1⟩
            | .ok _ =>
              if env.renameFails then
                ⟨.error (.renameError destTmp dest), fs1,
                  trace1 ++ [Effect.renameFile destTmp dest]⟩
              else
                ⟨.ok dest, (fs1.removeFile destTmp).addFile dest,
                  trace1 ++ [Effect.renameFile destTmp dest]⟩

/-- `Fetch` (fetch.go lines 40–71): local-file shortcut, nil-options
replacement, destination precondition, URL parse, scheme dispatch. -/
def Fetch (resource : String) (optionsIn : Option Options)
    (parseURL : String → Except String URL) (env : Env) (fs : FS) : FetchOutcome :=
  if fs.fileExists resource then
    ⟨.ok resource, fs, []⟩
  else
    let options := optionsIn.getD { destination := "", progress := false }
    if options.destination = "" then
      ⟨.error .missingDestination, fs, []⟩
    else
      match parseURL resource with
      | .error msg => ⟨.error (.parseError msg), fs, []⟩
      | .ok u =>
        match u.scheme with
        | "file" => ⟨.ok u.path, fs, []⟩
        | "http" => fetchHTTP u (some options) env fs
        | "https" => fetchHTTP u (some options) env fs
        | s => ⟨.error (.unknownScheme s), fs, []⟩

/-- A parse function that always fails, for witnesses that must not depend
on parsing. -/
def noParse : String → Except String URL :=
  fun _ => .error "parse error"

/-- An environment in which the network refuses the request, for witnesses
that must not depend on the network. -/
def quietEnv : Env :=
  ⟨.transportError "no network", false, false⟩

/-- C7: if the resource names an existing local file, `Fetch` returns it
unchanged and succeeds, for any options (even nil), any parse function
(even one that always fails, so no well-formedness of the resource is
needed), any network environment, with an empty effect trace: no network
activity and no other validation happens before the shortcut. -/
theorem fetch_local_shortcut (resource : String) (optionsIn : Option Options)
    (parseURL : String → Except String URL) (env : Env) (fs : FS)
    (h : fs.fileExists resource = true) :
    Fetch resource optionsIn parseURL env fs = ⟨.ok resource, fs, []⟩ := by
  unfold Fetch
  simp [h]

theorem fetch_local_shortcut_witness :
    (FS.mk ["pkg.exe"] []).fileExists "pkg.exe" = true ∧
    Fetch "pkg.exe" none noParse quietEnv (FS.mk ["pkg.exe"] []) =
      ⟨.ok "pkg.exe", FS.mk ["pkg.exe"] [], []⟩ :=
  ⟨by decide, fetch_local_shortcut "pkg.exe" none noParse quietEnv (FS.mk ["pkg.exe"] []) (by decide)⟩

/-- A parse function that resolves everything to a fixed http URL, for
witnesses exercising the http dispatch. -/
def httpParse : String → Except String URL :=
  fun _ => .ok ⟨"http", "example.com", "/pkg.exe"⟩

/-- A parse function that resolves everything to `file://x` (host `x`,
path `/x`), mirroring what `url.Parse` gives for such an input. -/
def fileParse : String → Except String URL :=
  fun _ => .ok ⟨"file", "x", "/x"⟩

/-- A parse function that resolves a schemeless resource the way
`url.Parse` does: empty scheme, the resource kept as the path. -/
def schemelessParse : String → Except String URL :=
  fun s => .ok ⟨"", "", s⟩

/-- The URL used by concrete counterexamples and witnesses. -/
def exampleURL : URL := ⟨"http", "example.com", "/pkg.exe"⟩

/-- An environment whose response is a plain 404 with no redirects. -/
def env404 : Env := ⟨.response ⟨[], 404, 100, []⟩, false, false⟩

/-- C9: calling `Fetch` with a nil options pointer is safe: when the
resource is an existing local file the call succeeds without the options
ever being read, and otherwise the nil pointer is replaced by empty
options, so the call fails with the missing-destination error instead of
dereferencing nil. -/
theorem fetch_nil_options_safe (resource : String)
    (parseURL : String → Except String URL) (env : Env) (fs : FS) :
    (fs.fileExists resource = true →
      Fetch resource none parseURL env fs = ⟨.ok resource, fs, []⟩) ∧
    (fs.fileExists resource = false →
      Fetch resource none parseURL env fs = ⟨.error .missingDestination, fs, []⟩) := by
  constructor
  · intro h
    unfold Fetch
    simp [h]
  · intro h
    unfold Fetch
    simp [h]

theorem fetch_nil_options_safe_witness :
    Fetch "pkg2.exe" none httpParse quietEnv (FS.mk ["pkg2.exe"] []) =
      ⟨.ok "pkg2.exe", FS.mk ["pkg2.exe"] [], []⟩ ∧
    Fetch "http://example.com/pkg.exe" none httpParse quietEnv (FS.mk [] []) =
      ⟨.error .missingDestination, FS.mk [] [], []⟩ :=
  ⟨(fetch_nil_options_safe "pkg2.exe" httpParse quietEnv (FS.mk ["pkg2.exe"] [])).1 (by decide),
   (fetch_nil_options_safe "http://example.com/pkg.exe" httpParse quietEnv (FS.mk [] [])).2 (by decide)⟩

/-- C5 counterexample: the Downloader (`fetchHTTP`) does NOT check the
destination precondition. Called directly with an empty destination it
issues the network request and propagates whatever the request produces
(here a 404 status error), instead of failing with the
missing-destination error before any network call. -/
theorem fetchHTTP_no_dest_check_cex :
    (fetchHTTP exampleURL (some ⟨"", false⟩) env404 (FS.mk [] [])).result =
      .error (.unexpectedStatus 404 exampleURL) ∧
    (fetchHTTP exampleURL (some ⟨"", false⟩) env404 (FS.mk [] [])).result ≠
      .error .missingDestination ∧
    (fetchHTTP exampleURL (some ⟨"", false⟩) env404 (FS.mk [] [])).trace =
      [.httpRequest exampleURL] :=
  ⟨rfl, fun h => by injection h with h2; exact FetchError.noConfusion h2, rfl⟩

/-- C5 (amended): every fetch of a resource that is not an existing local
file — in particular every HTTP(S) fetch — with an empty or absent
destination fails with the missing-destination error and an empty effect
trace, so before any network call; the check is performed by `Fetch` (the
Resolver) before URL parsing, not by the Downloader. -/
theorem fetch_missing_dest (resource : String) (optionsIn : Option Options)
    (parseURL : String → Except String URL) (env : Env) (fs : FS)
    (hfile : fs.fileExists resource = false)
    (hdest : (optionsIn.getD { destination := "", progress := false }).destination = "") :
    Fetch resource optionsIn parseURL env fs = ⟨.error .missingDestination, fs, []⟩ := by
  unfold Fetch
  simp [hfile, hdest]

theorem fetch_missing_dest_witness :
    Fetch "http://example.com/pkg.exe" (some ⟨"", true⟩) httpParse env404 (FS.mk [] []) =
      ⟨.error .missingDestination, FS.mk [] [], []⟩ :=
  fetch_missing_dest "http://example.com/pkg.exe" (some ⟨"", true⟩) httpParse env404
    (FS.mk [] []) (by decide) (by decide)

/-- C6 counterexample: a `file://x` fetch with no destination does not
succeed with the URL's path component; it fails with the
missing-destination error, because `Fetch` checks the destination before
dispatching on the scheme. -/
theorem fetch_file_no_dest_cex :
    Fetch "file://x" none fileParse quietEnv (FS.mk [] []) =
      ⟨.error .missingDestination, FS.mk [] [], []⟩ ∧
    (Fetch "file://x" none fileParse quietEnv (FS.mk [] [])).result ≠ .ok "/x" :=
  ⟨rfl, fun h => Except.noConfusion h⟩

/-- C6 (amended): for every `file://x` input that does not name an
existing local file, provided a non-empty destination is supplied, the
operation succeeds and returns exactly the URL's path component, with no
existence check on that path, no download and an empty effect trace (the
result holds for every filesystem and network environment); with an
absent or empty destination the call instead fails with the
missing-destination error. -/
theorem fetch_file_scheme (resource : String) (optionsIn : Option Options)
    (parseURL : String → Except String URL) (env : Env) (fs : FS) (u : URL)
    (hfile : fs.fileExists resource = false)
    (hdest : (optionsIn.getD { destination := "", progress := false }).destination ≠ "")
    (hparse : parseURL resource = .ok u)
    (hscheme : u.scheme = "file") :
    Fetch resource optionsIn parseURL env fs = ⟨.ok u.path, fs, []⟩ := by
  unfold Fetch
  simp [hfile, hdest, hparse, hscheme]

theorem fetch_file_scheme_witness :
    Fetch "file://x" (some ⟨"C:/dest", false⟩) fileParse quietEnv (FS.mk [] []) =
      ⟨.ok "/x", FS.mk [] [], []⟩ :=
  fetch_file_scheme "file://x" (some ⟨"C:/dest", false⟩) fileParse quietEnv (FS.mk [] [])
    ⟨"file", "x", "/x"⟩ (by decide) (by decide) rfl rfl

/-- C10 counterexample: a schemeless resource fetched with nil options
does not fail with the unknown-URL-scheme error; the missing-destination
check fires first. -/
theorem fetch_schemeless_cex :
    Fetch "foo/bar" none schemelessParse quietEnv (FS.mk [] []) =
      ⟨.error .missingDestination, FS.mk [] [], []⟩ ∧
    (Fetch "foo/bar" none schemelessParse quietEnv (FS.mk [] [])).result ≠
      .error (.unknownScheme "") :=
  ⟨rfl, fun h => by injection h with h2; exact FetchError.noConfusion h2⟩

/-- C10 (amended): for every resource that is not an existing local file,
parses successfully as a URL and has no scheme, provided a non-empty
destination was supplied, the operation fails with the unknown-URL-scheme
error naming the empty scheme — not with a parse error and not with a
file-not-found error; with an empty or absent destination the
missing-destination error takes precedence. -/
theorem fetch_unknown_scheme (resource : String) (optionsIn : Option Options)
    (parseURL : String → Except String URL) (env : Env) (fs : FS) (u : URL)
    (hfile : fs.fileExists resource = false)
    (hdest : (optionsIn.getD { destination := "", progress := false }).destination ≠ "")
    (hparse : parseURL resource = .ok u)
    (hscheme : u.scheme = "") :
    Fetch resource optionsIn parseURL env fs = ⟨.error (.unknownScheme ""), fs, []⟩ := by
  unfold Fetch
  simp [hfile, hdest, hparse, hscheme]

theorem fetch_unknown_scheme_witness :
    Fetch "foo/bar" (some ⟨"C:/dest", false⟩) schemelessParse quietEnv (FS.mk [] []) =
      ⟨.error (.unknownScheme ""), FS.mk [] [], []⟩ :=
  fetch_unknown_scheme "foo/bar" (some ⟨"C:/dest", false⟩) schemelessParse quietEnv
    (FS.mk [] []) ⟨"", "", "foo/bar"⟩ (by decide) (by decide) rfl rfl

/-- Folding an option through `elim none some` is the identity. -/
theorem option_elim_id (o : Option URL) : o.elim none some = o := by
  cases o <;> rfl

/-- The redirect hook aborts as soon as the request count reaches 10. -/
theorem checkRedirects_err (rs : List URL) (last : Option URL) (via : Nat)
    (hvia : via ≤ 10) (hlen : 11 ≤ via + rs.length) :
    checkRedirects rs last via = .error "stopped after 10 redirects" := by
  induction rs generalizing last via with
  | nil => simp at hlen; exfalso; omega
  | cons r rest ih =>
    unfold checkRedirects
    by_cases h : via ≥ 10
    · rw [if_pos h]
    · rw [if_neg h]
      exact ih (some r) (via + 1) (by omega) (by simp at hlen; omega)

/-- Below the cap, the redirect hook succeeds and records the last
redirect target (keeping the seed when there is none). -/
theorem checkRedirects_ok (rs : List URL) (last : Option URL) (via : Nat)
    (hlen : via + rs.length ≤ 10) :
    checkRedirects rs last via = .ok ((rs.getLast?).elim last some) := by
  induction rs generalizing last via with
  | nil => simp [checkRedirects]
  | cons r rest ih =>
    unfold checkRedirects
    rw [if_neg (by simp at hlen; omega)]
    rw [ih (some r) (via + 1) (by simp at hlen; omega)]
    cases rest with
    | nil => simp
    | cons s t =>
      rw [List.getLast?_cons_cons]
      cases h2 : (s :: t).getLast? with
      | none => simp at h2
      | some g => simp [h2]

/-- C8: when the redirect chain reaches length 10 the whole fetch aborts
with the too-many-redirects error, the filesystem is untouched (no
destination file is created) and only the request itself was issued; for
chains of length at most 9 the hook succeeds and `lastLocation` is the
most recent redirect target, `none` when no redirect occurred. -/
theorem fetchHTTP_redirect_cap (resource : URL) (optionsIn : Option Options)
    (env : Env) (fs : FS) (resp : HTTPResponse)
    (hnet : env.net = .response resp) :
    (10 ≤ resp.redirects.length →
      fetchHTTP resource optionsIn env fs =
        ⟨.error .tooManyRedirects, fs, [.httpRequest resource]⟩) ∧
    (resp.redirects.length ≤ 9 →
      checkRedirects resp.redirects none 1 = .ok resp.redirects.getLast?) := by
  constructor
  · intro h
    unfold fetchHTTP
    simp [hnet, checkRedirects_err resp.redirects none 1 (by omega) (by omega)]
  · intro h
    rw [checkRedirects_ok resp.redirects none 1 (by omega), option_elim_id]

/-- A redirect target used by concrete witnesses. -/
def redirectURL : URL := ⟨"http", "b", "/y.exe"⟩

/-- An environment that answers with a chain of 10 redirects. -/
def env10 : Env := ⟨.response ⟨List.replicate 10 redirectURL, 200, 5, []⟩, false, false⟩

theorem fetchHTTP_redirect_cap_witness :
    fetchHTTP exampleURL (some ⟨"C:/dest", false⟩) env10 (FS.mk [] []) =
      ⟨.error .tooManyRedirects, FS.mk [] [], [.httpRequest exampleURL]⟩ ∧
    checkRedirects [redirectURL] none 1 = .ok (some redirectURL) :=
  ⟨(fetchHTTP_redirect_cap exampleURL (some ⟨"C:/dest", false⟩) env10 (FS.mk [] [])
      ⟨List.replicate 10 redirectURL, 200, 5, []⟩ rfl).1 (by decide),
   (fetchHTTP_redirect_cap exampleURL (some ⟨"C:/dest", false⟩)
      ⟨.response ⟨[redirectURL], 200, 5, []⟩, false, false⟩ (FS.mk [] [])
      ⟨[redirectURL], 200, 5, []⟩ rfl).2 (by decide)⟩

/-- C3: a terminal response with any status other than 200 (201, 206, 404,
500, ...) fails with the unexpected-status error carrying that status code
and the originally requested URL; the filesystem is unchanged and the
trace records only the request, so no file — not even the `.download`
temporary — is created. -/
theorem fetchHTTP_bad_status (resource : URL) (optionsIn : Option Options)
    (env : Env) (fs : FS) (resp : HTTPResponse)
    (hnet : env.net = .response resp)
    (hlen : resp.redirects.length ≤ 9)
    (hstatus : resp.statusCode ≠ 200) :
    fetchHTTP resource optionsIn env fs =
      ⟨.error (.unexpectedStatus resp.statusCode resource), fs, [.httpRequest resource]⟩ := by
  unfold fetchHTTP
  simp [hnet, checkRedirects_ok resp.redirects none 1 (by omega), hstatus]

/-- An environment answering 206 Partial Content with a body. -/
def env206 : Env := ⟨.response ⟨[], 206, 5, [.chunk 5]⟩, false, false⟩

theorem fetchHTTP_bad_status_witness :
    fetchHTTP exampleURL (some ⟨"C:/dest", false⟩) env206 (FS.mk [] ["C:/dest"]) =
      ⟨.error (.unexpectedStatus 206 exampleURL), FS.mk [] ["C:/dest"],
        [.httpRequest exampleURL]⟩ :=
  fetchHTTP_bad_status exampleURL (some ⟨"C:/dest", false⟩) env206 (FS.mk [] ["C:/dest"])
    ⟨[], 206, 5, [.chunk 5]⟩ rfl (by decide) (by decide)

/-- C4: when a file already exists at the computed final destination path,
`fetchHTTP` returns that path with the filesystem unchanged and no create
or rename effect: nothing is written, so the existing file's content and
modification time are untouched and a repeated call is idempotent. -/
theorem fetchHTTP_idempotent (resource : URL) (options : Options) (env : Env)
    (fs : FS) (resp : HTTPResponse) (lastLoc : Option URL)
    (hnet : env.net = .response resp)
    (hredir : checkRedirects resp.redirects none 1 = .ok lastLoc)
    (hstatus : resp.statusCode = 200)
    (hexists : fs.fileExists (computeDest resource options.destination lastLoc fs) = true) :
    fetchHTTP resource (some options) env fs =
      ⟨.ok (computeDest resource options.destination lastLoc fs), fs,
        [.httpRequest resource]⟩ := by
  unfold fetchHTTP
  simp [hnet, hredir, hstatus, hexists]

/-- An environment answering 200 directly, with a one-chunk body. -/
def env200 : Env := ⟨.response ⟨[], 200, 5, [.chunk 5]⟩, false, false⟩

theorem fetchHTTP_idempotent_witness :
    fetchHTTP exampleURL (some ⟨"C:/dest/pkg.exe", false⟩) env200
      (FS.mk ["C:/dest/pkg.exe"] []) =
      ⟨.ok "C:/dest/pkg.exe", FS.mk ["C:/dest/pkg.exe"] [], [.httpRequest exampleURL]⟩ :=
  fetchHTTP_idempotent exampleURL ⟨"C:/dest/pkg.exe", false⟩ env200
    (FS.mk ["C:/dest/pkg.exe"] []) ⟨[], 200, 5, [.chunk 5]⟩ none rfl rfl rfl (by decide)

/-- C2: whenever a fetch with a directory destination returns a path, that
path is the destination directory joined with the base name of the last
redirect target's URL path when at least one redirect occurred, and with
the base name of the original request URL's path when no redirect occurred
(`getD` selects the original URL exactly when the redirect list is
empty) — never the original request's name after a redirect changed it. -/
theorem fetchHTTP_dir_dest_name (resource : URL) (options : Options) (env : Env)
    (fs : FS) (resp : HTTPResponse) (p : String)
    (hnet : env.net = .response resp)
    (hlen : resp.redirects.length ≤ 9)
    (hdir : fs.fileIsDir options.destination = true)
    (hok : (fetchHTTP resource (some options) env fs).result = .ok p) :
    p = filepathJoin options.destination
          (filepathBase ((resp.redirects.getLast?.getD resource).path)) := by
  have hdest : computeDest resource options.destination resp.redirects.getLast? fs =
      filepathJoin options.destination
        (filepathBase ((resp.redirects.getLast?.getD resource).path)) := by
    unfold computeDest
    rw [hdir]
    cases resp.redirects.getLast? <;> simp
  unfold fetchHTTP at hok
  by_cases hs : resp.statusCode = 200 <;>
    by_cases he : fs.fileExists (filepathJoin options.destination
      (filepathBase ((resp.redirects.getLast?.getD resource).path))) = true <;>
    by_cases hc : env.createFails = true <;>
    by_cases hr : env.renameFails = true <;>
    rcases hcopy : runCopy resp.body with msg | u <;>
    simp [hnet, checkRedirects_ok resp.redirects none 1 (by omega), option_elim_id,
      hdest, hs, he, hc, hr, hcopy] at hok <;>
    simp [hok]

/-- The original URL of the spec's redirect example. -/
def origURL : URL := ⟨"http", "a", "/x.exe"⟩

/-- An environment that redirects once to `redirectURL` and then answers
200 with a one-chunk body. -/
def envRedirect : Env := ⟨.response ⟨[redirectURL], 200, 5, [.chunk 5]⟩, false, false⟩

theorem fetchHTTP_dir_dest_name_witness :
    "downloads/y.exe" = filepathJoin "downloads" (filepathBase "/y.exe") ∧
    "downloads/y.exe" ≠ filepathJoin "downloads" (filepathBase "/x.exe") :=
  ⟨fetchHTTP_dir_dest_name origURL ⟨"downloads", false⟩ envRedirect
    (FS.mk [] ["downloads"]) ⟨[redirectURL], 200, 5, [.chunk 5]⟩ "downloads/y.exe"
    rfl (by decide) (by decide) rfl,
   by decide⟩

/-- Appending the `.download` suffix always changes the path, so the
temporary file and the final file are distinct. -/
theorem append_download_ne (d : String) : (d ++ ".download") ≠ d := by
  intro h
  have h2 := congrArg String.length h
  rw [String.length_append] at h2
  have h3 : ".download".length = 9 := rfl
  omega

/-- A freshly created file exists. -/
theorem FS.fileExists_addFile_self (fs : FS) (p : String) :
    (fs.addFile p).fileExists p = true := by
  simp [FS.addFile, FS.fileExists]

/-- Creating one file does not change the existence of a different path. -/
theorem FS.fileExists_addFile_other (fs : FS) (p q : String) (h : p ≠ q) :
    (fs.addFile p).fileExists q = fs.fileExists q := by
  simp [FS.addFile, FS.fileExists, h]

/-- C1: with a 200 response, a fresh final destination path `d` and a
successful temp-file creation, the fetch is atomic: (1) if the streaming
copy fails partway (network read or disk write error, i.e. `runCopy`
fails), the operation returns the copy error, no file exists at `d`, and
only the sibling `d ++ ".download"` temporary file remains; (2) a file
exists at `d` afterwards only when the operation returned `d`
successfully; (3) the operation returns `d` successfully only when the
full copy succeeded and the rename succeeded. -/
theorem fetchHTTP_atomic_write (resource : URL) (options : Options) (env : Env)
    (fs : FS) (resp : HTTPResponse) (lastLoc : Option URL) (d : String)
    (hnet : env.net = .response resp)
    (hredir : checkRedirects resp.redirects none 1 = .ok lastLoc)
    (hstatus : resp.statusCode = 200)
    (hd : d = computeDest resource options.destination lastLoc fs)
    (hnew : fs.fileExists d = false)
    (hcreate : env.createFails = false) :
    ((runCopy resp.body).isOk = false →
      (∃ msg, (fetchHTTP resource (some options) env fs).result = .error (.copyError msg)) ∧
      (fetchHTTP resource (some options) env fs).fs.fileExists d = false ∧
      (fetchHTTP resource (some options) env fs).fs.fileExists (d ++ ".download") = true) ∧
    ((fetchHTTP resource (some options) env fs).fs.fileExists d = true →
      (fetchHTTP resource (some options) env fs).result = .ok d) ∧
    ((fetchHTTP resource (some options) env fs).result = .ok d →
      (runCopy resp.body).isOk = true ∧ env.renameFails = false) := by
  have hne := append_download_ne d
  rcases hcopy : runCopy resp.body with msg | u
  · have hmain : fetchHTTP resource (some options) env fs =
        ⟨.error (.copyError msg), fs.addFile (d ++ ".download"),
          [.httpRequest resource, .createFile (d ++ ".download")]⟩ := by
      unfold fetchHTTP
      simp [hnet, hredir, hstatus, ← hd, hnew, hcreate, hcopy]
    refine ⟨fun _ => ⟨⟨msg, by rw [hmain]⟩, ?_, ?_⟩, ?_, ?_⟩
    · rw [hmain]
      rw [FS.fileExists_addFile_other fs (d ++ ".download") d hne]
      exact hnew
    · rw [hmain]
      exact FS.fileExists_addFile_self fs (d ++ ".download")
    · intro h
      rw [hmain, FS.fileExists_addFile_other fs (d ++ ".download") d hne, hnew] at h
      exact absurd h (by simp)
    · intro h
      rw [hmain] at h
      exact absurd h (by simp)
  · cases hrn : env.renameFails
    · have hmain : fetchHTTP resource (some options) env fs =
          ⟨.ok d, ((fs.addFile (d ++ ".download")).removeFile (d ++ ".download")).addFile d,
            [.httpRequest resource, .createFile (d ++ ".download"),
              .renameFile (d ++ ".download") d]⟩ := by
        unfold fetchHTTP
        simp [hnet, hredir, hstatus, ← hd, hnew, hcreate, hcopy, hrn]
      refine ⟨fun hfail => ?_, fun _ => by rw [hmain], fun _ => ⟨rfl, rfl⟩⟩
      · exact absurd hfail (by simp [Except.isOk, Except.toBool])
    · have hmain : fetchHTTP resource (some options) env fs =
          ⟨.error (.renameError (d ++ ".download") d), fs.addFile (d ++ ".download"),
            [.httpRequest resource, .createFile (d ++ ".download"),
              .renameFile (d ++ ".download") d]⟩ := by
        unfold fetchHTTP
        simp [hnet, hredir, hstatus, ← hd, hnew, hcreate, hcopy, hrn]
      refine ⟨fun hfail => ?_, ?_, ?_⟩
      · exact absurd hfail (by simp [Except.isOk, Except.toBool])
      · intro h
        rw [hmain, FS.fileExists_addFile_other fs (d ++ ".download") d hne, hnew] at h
        exact absurd h (by simp)
      · intro h
        rw [hmain] at h
        exact absurd h (by simp)

/-- An environment whose 200 response's body fails with a disk write
error after five bytes. -/
def envBad : Env := ⟨.response ⟨[], 200, 10, [.chunk 5, .writeError]⟩, false, false⟩

theorem fetchHTTP_atomic_write_witness :
    (∃ msg, (fetchHTTP exampleURL (some ⟨"C:/dest", false⟩) envBad (FS.mk [] [])).result =
      .error (.copyError msg)) ∧
    (fetchHTTP exampleURL (some ⟨"C:/dest", false⟩) envBad (FS.mk [] [])).fs.fileExists
      "C:/dest" = false ∧
    (fetchHTTP exampleURL (some ⟨"C:/dest", false⟩) envBad (FS.mk [] [])).fs.fileExists
      ("C:/dest" ++ ".download") = true :=
  (fetchHTTP_atomic_write exampleURL ⟨"C:/dest", false⟩ envBad (FS.mk [] [])
    ⟨[], 200, 10, [.chunk 5, .writeError]⟩ none "C:/dest"
    rfl rfl rfl rfl (by decide) rfl).1 (by decide)
